import Mathlib

/-!
Verification development for two browser-UI fragments:
* `form-proxy.js` — a builder for a proxy object `form.$p` exposing the native
  DOM properties of a form element that same-named form fields shadow, with a
  legacy fallback for engines without prototype-based property descriptors.
* `amp-photo-split-compare` — a custom element building a two-image comparison
  slider and wiring pointer/touch listeners on its drag handle.

Both are shallowly embedded: DOM state becomes explicit records, JS property
access becomes association-list lookup, fallible accesses become `Option`.
-/

/-- First-match association-list lookup, modelling JS property/attribute
lookup on a list of (name, value) pairs. -/
def lookupA {β : Type u} : List (String × β) → String → Option β
  | [], _ => none
  | (k, v) :: rest, n => if k = n then some v else lookupA rest n

/-- Left-biased choice on `Option`, used to state lookup laws. -/
def orElseO {β : Type u} (a b : Option β) : Option β :=
  match a with
  | some v => some v
  | none => b

/-- Models `element.getAttribute(n)`: `none` models the JS `null` result. -/
def getAttr (attrs : List (String × String)) (n : String) : Option String :=
  lookupA attrs n

/-- Models `element.setAttribute(n, v)`: replaces the attribute if present,
appends it otherwise. -/
def setAttr : List (String × String) → String → String → List (String × String)
  | [], n, v => [(n, v)]
  | (k, w) :: rest, n, v =>
    if k = n then (n, v) :: rest else (k, w) :: setAttr rest n v

/-- Models `element.removeAttribute(n)`. Attribute names are unique in a DOM element,
so removing every pair with that name is the DOM behaviour. -/
def removeAttr (attrs : List (String × String)) (n : String) : List (String × String) :=
  attrs.filter (fun kv => kv.1 ≠ n)

namespace PhotoSplit

/-- Identities of the six DOM nodes the widget manipulates: the custom element
itself and the five nodes its constructor creates. -/
inductive NodeId
  | root
  | c1
  | c2
  | img1
  | img2
  | slider
deriving DecidableEq, Repr

/-- The observable data of one DOM element in the widget model. `children` holds
node identities, so object aliasing (`appendChild` before later mutation of the
same node) behaves as in the DOM. -/
structure ElemData where
  tagName : String
  className : String := ""
  attrs : List (String × String) := []
  styleHeight : Option String := none
  styleWidth : Option String := none
  styleLeft : Option String := none
  src : Option String := none
  heightProp : Option String := none
  widthProp : Option String := none
  offsetLeft : Int := 0
  children : List NodeId := []
deriving DecidableEq, Repr

/-- One touch point of a touch event (only `pageX` is read by the widget). -/
structure Touch where
  pageX : Int
deriving DecidableEq, Repr

/-- A dispatched event. `touches = none` models an event without a `touches`
list (every mouse event); `touches = some ts` models a touch event. -/
structure DomEvent where
  touches : Option (List Touch)
deriving DecidableEq, Repr

/-- The three handler methods that `createListeners` can wire. -/
inductive Handler
  | sliderBeginsMoving
  | whileSliderMoving
  | whenSliderStops
deriving DecidableEq, Repr

/-- The widget instance: the element plus the five nodes created in the
constructor, the registered event listeners, and the drag-state fields that
`sliderBeginsMoving` assigns (`none` models a not-yet-assigned JS field). -/
structure AmpPhotoSplitCompare where
  element : ElemData
  image1Container_ : ElemData
  image2Container_ : ElemData
  image1_ : ElemData
  image2_ : ElemData
  slider_ : ElemData
  myText_ : String
  listeners : List (NodeId × String × Handler)
  startX : Option Int := none
  startWidth : Option Int := none
deriving DecidableEq, Repr

/-- The `AmpPhotoSplitCompare` constructor: five fresh nodes
(`document.createElement`) and the `myText_` string. -/
def construct (element : ElemData) : AmpPhotoSplitCompare :=
  { element := element
    image1Container_ := { tagName := "div" }
    image2Container_ := { tagName := "div" }
    image1_ := { tagName := "img" }
    image2_ := { tagName := "img" }
    slider_ := { tagName := "div" }
    myText_ := "AMP Photo-Split-Compare"
    listeners := [] }

/-- JS string concatenation `x + 'px'` where `x` is a `getAttribute` result:
the JS `null` prints as the string `null`. -/
def jsConcatPx (o : Option String) : String :=
  (match o with
   | some s => s
   | none => "null") ++ "px"

/-- Models `parent.appendChild(x)`: the DOM first detaches `x` from its current
position, then appends it at the end of the child list. -/
def appendChild (l : List NodeId) (x : NodeId) : List NodeId :=
  l.erase x ++ [x]

/-- Models `AmpPhotoSplitCompare.buildPhotoCompareSlider`, line by line: element
style from the `height`/`width` attributes, images appended into their
containers, container classes and the 49% initial width, image `src`,
`height`, `width` and classes from the element's attributes, the slider
class, and finally the three `appendChild` calls on the element. -/
def buildPhotoCompareSlider (s : AmpPhotoSplitCompare) : AmpPhotoSplitCompare :=
  let element :=
    { s.element with
        styleHeight := some (jsConcatPx (getAttr s.element.attrs "height"))
        styleWidth := some (jsConcatPx (getAttr s.element.attrs "width")) }
  let image1Container_ :=
    { s.image1Container_ with
        children := appendChild s.image1Container_.children NodeId.img1
        className := "image1Container"
        styleWidth := some "49%" }
  let image2Container_ :=
    { s.image2Container_ with
        children := appendChild s.image2Container_.children NodeId.img2
        className := "image2Container" }
  let image1_ :=
    { s.image1_ with
        src := getAttr s.element.attrs "image-1-src"
        heightProp := getAttr s.element.attrs "height"
        widthProp := getAttr s.element.attrs "width"
        className := "image1" }
  let image2_ :=
    { s.image2_ with
        src := getAttr s.element.attrs "image-2-src"
        heightProp := getAttr s.element.attrs "height"
        widthProp := getAttr s.element.attrs "width"
        className := "image2" }
  let slider_ := { s.slider_ with className := "slider" }
  let element :=
    { element with
        children :=
          appendChild
            (appendChild (appendChild element.children NodeId.c1) NodeId.c2)
            NodeId.slider }
  { s with
      element := element
      image1Container_ := image1Container_
      image2Container_ := image2Container_
      image1_ := image1_
      image2_ := image2_
      slider_ := slider_ }

/-- Models `target.addEventListener(evt, handler)` in the model: records the
registration. -/
def addEventListener (s : AmpPhotoSplitCompare) (target : NodeId) (evt : String)
    (h : Handler) : AmpPhotoSplitCompare :=
  { s with listeners := s.listeners ++ [(target, evt, h)] }

/-- Models `AmpPhotoSplitCompare.createListeners`: the four registrations on the
slider handle, in source order. -/
def createListeners (s : AmpPhotoSplitCompare) : AmpPhotoSplitCompare :=
  let s := addEventListener s NodeId.slider "mousedown" Handler.sliderBeginsMoving
  let s := addEventListener s NodeId.slider "touchstart" Handler.sliderBeginsMoving
  let s := addEventListener s NodeId.slider "touchmove" Handler.whileSliderMoving
  addEventListener s NodeId.slider "touchend" Handler.whenSliderStops

/-- Models `AmpPhotoSplitCompare.buildCallback`: build the subtree, then wire the
listeners. -/
def buildCallback (s : AmpPhotoSplitCompare) : AmpPhotoSplitCompare :=
  createListeners (buildPhotoCompareSlider s)

/-- Decimal digit accumulation over a character list; fails on the first
non-digit. -/
def parseNatAux : List Char → Nat → Option Nat
  | [], acc => some acc
  | c :: rest, acc =>
    if c.isDigit then parseNatAux rest (acc * 10 + (c.toNat - 48)) else none

/-- Base-10 integer parsing of a whole string, as JS `parseInt(str, 10)` and
the `Number` coercion behave on the plain integer strings the widget meets;
`none` models the JS `NaN` result. -/
def parseIntStr (s : String) : Option Int :=
  match s.data with
  | [] => none
  | '-' :: rest =>
    if rest.isEmpty then none
    else (parseNatAux rest 0).map (fun n => -(n : Int))
  | cs => (parseNatAux cs 0).map (fun n => (n : Int))

/-- Models `parseInt(str, 10)` restricted to the integer strings the widget meets;
`none` models the JS `NaN` result. -/
def parseIntB10 (s : String) : Option Int :=
  parseIntStr s

/-- Models `AmpPhotoSplitCompare.sliderBeginsMoving`. The handler starts with
`e.touches[0].pageX`: if the event has no `touches` list (every `mousedown`
event) reading `[0]` throws, and if the list is empty reading `.pageX` of
`undefined` throws — both modelled by `none`. `computedWidth` is the
`window.getComputedStyle(this.element).width` string. -/
def sliderBeginsMoving (computedWidth : String) (s : AmpPhotoSplitCompare)
    (e : DomEvent) : Option AmpPhotoSplitCompare :=
  match e.touches with
  | none => none
  | some [] => none
  | some (t :: _) =>
    some { s with startX := some t.pageX, startWidth := parseIntB10 computedWidth }

/-- The numeric coercion JS applies to `getAttribute('width')` on the left of
`<`: `null` coerces to `0`, an integer string to its value, anything else to
`NaN` (modelled `none`, on which `<` is false). -/
def toNumAttr : Option String → Option Int
  | none => some 0
  | some s => if s = "" then some 0 else parseIntStr s

/-- Models `AmpPhotoSplitCompare.whileSliderMoving`: sets the first container's width
to `(e.touches[0].pageX - offsetLeft) + 'px'` when that difference is below
the element's `width` attribute, otherwise to the attribute value plus `px`,
then sets the slider's `left` style to the same string. Events without a
non-empty `touches` list make `e.touches[0].pageX` throw (`none`). -/
def whileSliderMoving (s : AmpPhotoSplitCompare) (e : DomEvent) :
    Option AmpPhotoSplitCompare :=
  match e.touches with
  | none => none
  | some [] => none
  | some (t :: _) =>
    let wAttr := getAttr s.element.attrs "width"
    let d := t.pageX - s.image1Container_.offsetLeft
    let below :=
      match toNumAttr wAttr with
      | some n => decide (d < n)
      | none => false
    let w := if below then toString d ++ "px" else jsConcatPx wAttr
    some { s with
            image1Container_ := { s.image1Container_ with styleWidth := some w }
            slider_ := { s.slider_ with styleLeft := some w } }

/-- The joint width update `whileSliderMoving` performs: the first
container's `width` style and the slider's `left` style both set to the
string `w`. -/
def setContainerWidth (s : AmpPhotoSplitCompare) (w : String) :
    AmpPhotoSplitCompare :=
  { s with
      image1Container_ := { s.image1Container_ with styleWidth := some w }
      slider_ := { s.slider_ with styleLeft := some w } }

/-- Models `AmpPhotoSplitCompare.whenSliderStops`: an empty body. -/
def whenSliderStops (s : AmpPhotoSplitCompare) (_e : DomEvent) :
    AmpPhotoSplitCompare :=
  s

/-- Event dispatch: maps a registered handler identity to the method the
listener wiring bound. -/
def dispatch (computedWidth : String) (h : Handler) (s : AmpPhotoSplitCompare)
    (e : DomEvent) : Option AmpPhotoSplitCompare :=
  match h with
  | Handler.sliderBeginsMoving => sliderBeginsMoving computedWidth s e
  | Handler.whileSliderMoving => whileSliderMoving s e
  | Handler.whenSliderStops => some (whenSliderStops s e)

end PhotoSplit

namespace FormProxy

/-- JS values as far as the form proxy manipulates them. -/
inductive JSVal
  | undef
  | null
  | bool (b : Bool)
  | num (n : Int)
  | str (s : String)
deriving DecidableEq, Repr

/-- JS truthiness (`if (value)`): `undefined`, `null`, `false`, `0` and the
empty string are falsy. -/
def truthy : JSVal → Bool
  | JSVal.undef => false
  | JSVal.null => false
  | JSVal.bool b => b
  | JSVal.num n => decide (n ≠ 0)
  | JSVal.str s => decide (s ≠ "")

/-- The string coercion `setAttribute` applies to its value argument. -/
def jsToString : JSVal → String
  | JSVal.undef => "undefined"
  | JSVal.null => "null"
  | JSVal.bool b => if b then "true" else "false"
  | JSVal.num n => toString n
  | JSVal.str s => s

/-- A property descriptor found on a DOM prototype
(`Object.getOwnPropertyDescriptor`): a function-valued data property (a
method), a non-function data property, or a getter/setter pair. `F` is the
type of form-element states, `V` of JS values exchanged with the form. -/
inductive Descr (F V : Type)
  | methodVal (m : F → List V → V)
  | dataVal (v : V)
  | accessor (g : Option (F → V)) (s : Option (F → V → F))

/-- A property bound onto `FormProxy.prototype` by the walk: either the
method wrapper `function() { return method.apply(this.form_, arguments) }`
or the accessor spec forwarding `property.get`/`property.set` to the form. -/
inductive Binding (F V : Type)
  | method (f : F → List V → V)
  | accessor (g : Option (F → V)) (s : Option (F → V → F))

/-- The binding the walk creates from a descriptor: a function value becomes
the forwarding method; otherwise the spec carries over the getter and the
setter when present (for a non-function data property both are absent and
the property is defined with an empty spec). -/
def bindDescr {F V : Type} : Descr F V → Binding F V
  | Descr.methodVal m => Binding.method (fun form args => m form args)
  | Descr.dataVal _ => Binding.accessor none none
  | Descr.accessor g s => Binding.accessor g s

/-- Models `name.toUpperCase()` on the ASCII property names the walk meets. -/
def upperName (s : String) : String :=
  String.mk (s.data.map Char.toUpper)

/-- Models `startsWith(name, 'on')` from `src/string.js`. -/
def startsOn (s : String) : Bool :=
  match s.data with
  | c1 :: c2 :: _ => c1 == 'o' && c2 == 'n'
  | _ => false

/-- The name filters of the walk that do not depend on what was already
bound: all-uppercase constants (`name.toUpperCase() == name`), `on…` event
handlers, and the testing-only blacklist (`blacklistedProperties`, modelled
by `bl`). -/
def staticSkip (bl : Option (List String)) (name : String) : Bool :=
  (upperName name == name) || startsOn name ||
    (match bl with
     | some l => l.contains name
     | none => false)

/-- The inner `for (const name in prototype)` loop of
`createFormProxyConstr`: binds each descriptor unless a static filter
applies or the name was already created on the accumulated prototype. -/
def addProps {F V : Type} (bl : Option (List String)) :
    List (String × Binding F V) → List (String × Descr F V) →
    List (String × Binding F V)
  | acc, [] => acc
  | acc, (name, d) :: rest =>
    if staticSkip bl name || (lookupA acc name).isSome then
      addProps bl acc rest
    else
      addProps bl (acc ++ [(name, bindDescr d)]) rest

/-- The `inheritance.forEach` loop: `none` models a `klass` that is absent on
the window (`klass && klass.prototype` iterates nothing). -/
def buildProtoAux {F V : Type} (bl : Option (List String)) :
    List (Option (List (String × Descr F V))) → List (String × Binding F V) →
    List (String × Binding F V)
  | [], acc => acc
  | none :: rest, acc => buildProtoAux bl rest acc
  | some props :: rest, acc => buildProtoAux bl rest (addProps bl acc props)

/-- Models `createFormProxyConstr`: the prototype object built by walking the
inheritance chain, starting from an empty `FormProxy.prototype`. -/
def buildProto {F V : Type} (bl : Option (List String))
    (chain : List (Option (List (String × Descr F V)))) :
    List (String × Binding F V) :=
  buildProtoAux bl chain []

/-- First descriptor for `name` along the prototype chain, in walk order. -/
def chainFind {F V : Type} :
    List (Option (List (String × Descr F V))) → String → Option (Descr F V)
  | [], _ => none
  | none :: rest, n => chainFind rest n
  | some props :: rest, n =>
    match lookupA props n with
    | some d => some d
    | none => chainFind rest n

/-- The descriptor that ends up bound for `name`: the first one along the
chain, unless a static filter excludes the name. -/
def resolveDescr {F V : Type} (bl : Option (List String))
    (chain : List (Option (List (String × Descr F V)))) (name : String) :
    Option (Descr F V) :=
  if staticSkip bl name then none else chainFind chain name

/-- Calling `proxy[name](args)` through the built prototype. -/
def proxyCall {F V : Type} (proto : List (String × Binding F V)) (form : F)
    (name : String) (args : List V) : Option V :=
  match lookupA proto name with
  | some (Binding.method f) => some (f form args)
  | _ => none

/-- Reading `proxy[name]` through the built prototype (`none` models the JS
`undefined` of a missing or getter-less property). -/
def proxyGet {F V : Type} (proto : List (String × Binding F V)) (form : F)
    (name : String) : Option V :=
  match lookupA proto name with
  | some (Binding.accessor (some g) _) => some (g form)
  | _ => none

/-- Writing `proxy[name] = v` through the built prototype: the form state the
setter produces, `none` when no setter runs. -/
def proxySet {F V : Type} (proto : List (String × Binding F V)) (form : F)
    (name : String) (v : V) : Option F :=
  match lookupA proto name with
  | some (Binding.accessor _ (some st)) => some (st form v)
  | _ => none

/-- A proxy instance: its prototype (shared through `win.FormProxy`) and the
own properties `setupLegacyProxy` may later define directly on it. -/
structure ProxyObj (F V : Type) where
  proto : List (String × Binding F V)
  own : List (String × Binding F V)

/-- The JS `name in proxy` test: own properties or prototype properties. -/
def proxyHasName {F V : Type} (p : ProxyObj F V) (n : String) : Bool :=
  (lookupA p.own n).isSome || (lookupA p.proto n).isSome

/-- The window state the proxy builder touches: the DOM prototype chain of
its form elements and the `win.FormProxy` cache slot. -/
structure Win (F V : Type) where
  chain : List (Option (List (String × Descr F V)))
  FormProxy : Option (List (String × Binding F V))

/-- Models `getFormProxyConstr`: returns the cached constructor, creating and
caching it on the window on first use. The constructor is identified with
the prototype it gives its instances. -/
def getFormProxyConstr {F V : Type} (bl : Option (List String)) (w : Win F V) :
    List (String × Binding F V) × Win F V :=
  match w.FormProxy with
  | some p => (p, w)
  | none =>
    let p := buildProto bl w.chain
    (p, { w with FormProxy := some p })

/-- Everything observable after `installFormProxy`: the returned proxy, the
form's `$p` property, the window, and whether `setupLegacyProxy` ran. -/
structure InstallResult (F V : Type) where
  proxy : ProxyObj F V
  pProp : Option (ProxyObj F V)
  win : Win F V
  legacyInvoked : Bool

/-- Models `installFormProxy`: builds (or reuses) the constructor, instantiates the
proxy, runs the legacy setup when the fresh proxy has no `action` property,
assigns `form['$p']` and returns the proxy. `setupLegacy` is the in-place
mutation `setupLegacyProxy` performs on the proxy object. -/
def installFormProxy {F V : Type} (bl : Option (List String))
    (setupLegacy : ProxyObj F V → ProxyObj F V) (w : Win F V) :
    InstallResult F V :=
  let pr := getFormProxyConstr bl w
  let proxy0 : ProxyObj F V := { proto := pr.1, own := [] }
  if proxyHasName proxy0 "action" then
    { proxy := proxy0, pProp := some proxy0, win := pr.2, legacyInvoked := false }
  else
    let proxy1 := setupLegacy proxy0
    { proxy := proxy1, pProp := some proxy1, win := pr.2, legacyInvoked := true }

/-- Models `LegacyPropAccessType`. -/
inductive LegacyPropAccessType
  | ATTR
  | READ_ONCE
deriving DecidableEq, Repr

/-- Models `LegacyPropDataType`. -/
inductive LegacyPropDataType
  | URL
  | BOOL
  | TOGGLE
deriving DecidableEq, Repr

/-- One entry of `LEGACY_PROPS`; `dflt` is the source's `def` field (a Lean
keyword), `none` modelling an absent (`undefined`) default. -/
structure LegacyPropDef where
  access : LegacyPropAccessType
  attr : Option String := none
  type : Option LegacyPropDataType := none
  dflt : Option JSVal := none
deriving DecidableEq, Repr

/-- The `LEGACY_PROPS` table, transcribed entry for entry. -/
def LEGACY_PROPS : List (String × LegacyPropDef) :=
  [("acceptCharset", { access := LegacyPropAccessType.ATTR, attr := some "accept-charset" }),
   ("accessKey", { access := LegacyPropAccessType.ATTR, attr := some "accesskey" }),
   ("action", { access := LegacyPropAccessType.ATTR, type := some LegacyPropDataType.URL }),
   ("attributes", { access := LegacyPropAccessType.READ_ONCE }),
   ("autocomplete", { access := LegacyPropAccessType.ATTR, dflt := some (JSVal.str "on") }),
   ("children", { access := LegacyPropAccessType.READ_ONCE }),
   ("dataset", { access := LegacyPropAccessType.READ_ONCE }),
   ("dir", { access := LegacyPropAccessType.ATTR }),
   ("draggable", { access := LegacyPropAccessType.ATTR, type := some LegacyPropDataType.BOOL, dflt := some (JSVal.bool false) }),
   ("elements", { access := LegacyPropAccessType.READ_ONCE }),
   ("encoding", { access := LegacyPropAccessType.READ_ONCE }),
   ("enctype", { access := LegacyPropAccessType.ATTR }),
   ("hidden", { access := LegacyPropAccessType.ATTR, type := some LegacyPropDataType.TOGGLE, dflt := some (JSVal.bool false) }),
   ("id", { access := LegacyPropAccessType.ATTR, dflt := some (JSVal.str "") }),
   ("lang", { access := LegacyPropAccessType.ATTR }),
   ("localName", { access := LegacyPropAccessType.READ_ONCE }),
   ("method", { access := LegacyPropAccessType.ATTR, dflt := some (JSVal.str "get") }),
   ("name", { access := LegacyPropAccessType.ATTR }),
   ("noValidate", { access := LegacyPropAccessType.ATTR, attr := some "novalidate", type := some LegacyPropDataType.TOGGLE, dflt := some (JSVal.bool false) }),
   ("prefix", { access := LegacyPropAccessType.READ_ONCE }),
   ("spellcheck", { access := LegacyPropAccessType.ATTR }),
   ("style", { access := LegacyPropAccessType.READ_ONCE }),
   ("target", { access := LegacyPropAccessType.ATTR, dflt := some (JSVal.str "") }),
   ("title", { access := LegacyPropAccessType.ATTR }),
   ("translate", { access := LegacyPropAccessType.ATTR })]

/-- The ATTR getter `setupLegacyProxy` defines, over the form's attribute
list: read the attribute, then apply the default and the per-type conversion
in source order. `resolveUrl` models `parseUrl(value).href` (URL resolution
against the document base). -/
def legacyAttrGet (resolveUrl : String → String) (d : LegacyPropDef)
    (name : String) (attrs : List (String × String)) : JSVal :=
  let attr :=
    match d.attr with
    | some a => a
    | none => name
  let v0 := getAttr attrs attr
  if v0.isNone && d.dflt.isSome then
    d.dflt.getD JSVal.undef
  else if d.type = some LegacyPropDataType.BOOL then
    JSVal.bool (v0 == some "true")
  else if d.type = some LegacyPropDataType.TOGGLE then
    JSVal.bool (! v0.isNone)
  else if d.type = some LegacyPropDataType.URL then
    JSVal.str (resolveUrl (v0.getD ""))
  else
    match v0 with
    | some s => JSVal.str s
    | none => JSVal.null

/-- The ATTR setter `setupLegacyProxy` defines: a TOGGLE value is first
mapped to the empty string (truthy) or `null` (falsy); then a non-`null`,
non-`undefined` value is written with `setAttribute` and anything else
removes the attribute (`value != null` is the JS loose test). -/
def legacyAttrSet (d : LegacyPropDef) (name : String)
    (attrs : List (String × String)) (value : JSVal) : List (String × String) :=
  let attr :=
    match d.attr with
    | some a => a
    | none => name
  let value :=
    if d.type = some LegacyPropDataType.TOGGLE then
      if truthy value then JSVal.str "" else JSVal.null
    else value
  match value with
  | JSVal.null => removeAttr attrs attr
  | JSVal.undef => removeAttr attrs attr
  | v => setAttr attrs attr (jsToString v)

/-- Models `element.nextSibling` inside a child list. -/
def nextSiblingL : List Nat → Nat → Option Nat
  | [], _ => none
  | a :: rest, x => if a = x then rest.head? else nextSiblingL rest x

/-- Models `parent.removeChild(x)`: removes the (in the DOM unique) occurrence of
`x` from the child list. -/
def removeChildL : List Nat → Nat → List Nat
  | [], _ => []
  | a :: rest, x => if a = x then rest else a :: removeChildL rest x

/-- Models `parent.insertBefore(x, r)`: insert before the first occurrence of `r`.
The model appends when `r` is not a child; the READ_ONCE path only calls it
with the removed node's own recorded next sibling. -/
def insertBeforeRef : List Nat → Nat → Nat → List Nat
  | [], x, _ => [x]
  | a :: rest, x, r =>
    if a = r then x :: a :: rest else a :: insertBeforeRef rest x r

/-- Models `parent.insertBefore(x, ref)` with a nullable reference node: a `null`
reference appends at the end. -/
def insertBeforeL (l : List Nat) (x : Nat) (ref : Option Nat) : List Nat :=
  match ref with
  | none => l ++ [x]
  | some r => insertBeforeRef l x r

/-- The READ_ONCE acquisition of `setupLegacyProxy` when a form field shadows
the property: record the shadowing element's next sibling, remove it
(`removeChild` takes the first — in the DOM unique — occurrence), evaluate
`form[name]` (its outcome `read` may be a thrown error), and re-insert the
element before the recorded sibling in the `finally` block, so the
re-insertion happens on both outcomes. Returns the read outcome and the
final child list. -/
def readOnceAcquire {V : Type} (children : List Nat) (field : Nat)
    (read : Except Unit V) : Except Unit V × List Nat :=
  let ns := nextSiblingL children field
  let removed := removeChildL children field
  (read, insertBeforeL removed field ns)

end FormProxy

open PhotoSplit FormProxy

/-- Concrete widget element used by the witnesses: all four attributes set,
no prior children. -/
def wElem : ElemData :=
  { tagName := "amp-photo-split-compare"
    attrs := [("height", "100"), ("width", "200"),
              ("image-1-src", "a.png"), ("image-2-src", "b.png")] }

/-- Concrete widget element with no attributes at all. -/
def wElemBare : ElemData :=
  { tagName := "amp-photo-split-compare" }

/-- Concrete widget state for the C3 witness: `width` attribute 200,
container at offset 0. -/
def wState : AmpPhotoSplitCompare :=
  construct wElem

/-- Concrete prototype method for the walk witnesses: returns the form. -/
def wMethod : Nat → List Nat → Nat :=
  fun f _ => f

/-- Concrete prototype getter for the walk witnesses. -/
def wGetter : Nat → Nat :=
  fun f => f + 1

/-- Concrete prototype setter for the walk witnesses. -/
def wSetter : Nat → Nat → Nat :=
  fun _ v => v

/-- Concrete two-level prototype chain (second class absent on the window)
with one method and one accessor property. -/
def wChain : List (Option (List (String × Descr Nat Nat))) :=
  [some [("getSelf", Descr.methodVal wMethod),
         ("id", Descr.accessor (some wGetter) (some wSetter))],
   none]

/-- Concrete window for the C7 counterexample: a chain exposing an `action`
accessor, and an empty `win.FormProxy` cache slot. -/
def cWin : Win Nat Nat :=
  { chain := [some [("action", Descr.accessor (some wGetter) none)]]
    FormProxy := none }

/-- Concrete window with an empty chain and an empty cache slot. -/
def cWinBare : Win Nat Nat :=
  { chain := []
    FormProxy := none }

/-- The `LEGACY_PROPS` entry of `hidden`. -/
def wHiddenDef : LegacyPropDef :=
  { access := LegacyPropAccessType.ATTR
    type := some LegacyPropDataType.TOGGLE
    dflt := some (JSVal.bool false) }

/-- The `LEGACY_PROPS` entry of `noValidate`. -/
def wNoValidateDef : LegacyPropDef :=
  { access := LegacyPropAccessType.ATTR
    attr := some "novalidate"
    type := some LegacyPropDataType.TOGGLE
    dflt := some (JSVal.bool false) }

/-- Identity URL resolution, a concrete `parseUrl(·).href` for witnesses. -/
def idResolve : String → String :=
  fun s => s

theorem appendChild_fresh (l : List NodeId) (x : NodeId) (h : x ∉ l) :
    appendChild l x = l ++ [x] := by
  unfold PhotoSplit.appendChild
  rw [List.erase_of_not_mem h]

/-- C4: `buildCallback` on a freshly constructed widget produces exactly the
stated DOM subtree: the element gains the three children `image1Container`,
`image2Container` and the slider handle, in that order and nothing else; the
first container has class `image1Container`, width `49%` and holds the first
image; the second has class `image2Container` and holds the second image;
the handle has class `slider`; and both images take `src`, `height` and
`width` from the element's `image-1-src`/`image-2-src`, `height` and `width`
attributes. The hypotheses say the created nodes are not already children of
the element, which holds for the freshly created nodes of the constructor. -/
theorem buildCallback_builds_subtree (element : ElemData)
    (h1 : NodeId.c1 ∉ element.children)
    (h2 : NodeId.c2 ∉ element.children)
    (h3 : NodeId.slider ∉ element.children) :
    buildCallback (construct element) =
      { element :=
          { element with
              styleHeight := some (jsConcatPx (getAttr element.attrs "height"))
              styleWidth := some (jsConcatPx (getAttr element.attrs "width"))
              children := element.children ++ [NodeId.c1, NodeId.c2, NodeId.slider] }
        image1Container_ :=
          { tagName := "div", className := "image1Container",
            styleWidth := some "49%", children := [NodeId.img1] }
        image2Container_ :=
          { tagName := "div", className := "image2Container",
            children := [NodeId.img2] }
        image1_ :=
          { tagName := "img", className := "image1",
            src := getAttr element.attrs "image-1-src",
            heightProp := getAttr element.attrs "height",
            widthProp := getAttr element.attrs "width" }
        image2_ :=
          { tagName := "img", className := "image2",
            src := getAttr element.attrs "image-2-src",
            heightProp := getAttr element.attrs "height",
            widthProp := getAttr element.attrs "width" }
        slider_ := { tagName := "div", className := "slider" }
        myText_ := "AMP Photo-Split-Compare"
        listeners :=
          [(NodeId.slider, "mousedown", Handler.sliderBeginsMoving),
           (NodeId.slider, "touchstart", Handler.sliderBeginsMoving),
           (NodeId.slider, "touchmove", Handler.whileSliderMoving),
           (NodeId.slider, "touchend", Handler.whenSliderStops)] } := by
  have h2a : NodeId.c2 ∉ element.children ++ [NodeId.c1] := by
    simp only [List.mem_append, List.mem_singleton]
    rintro (hc | hc)
    · exact h2 hc
    · exact absurd hc (by decide)
  have h3a : NodeId.slider ∉ (element.children ++ [NodeId.c1]) ++ [NodeId.c2] := by
    simp only [List.mem_append, List.mem_singleton]
    rintro ((hc | hc) | hc)
    · exact h3 hc
    · exact absurd hc (by decide)
    · exact absurd hc (by decide)
  simp [PhotoSplit.buildCallback, PhotoSplit.createListeners,
    PhotoSplit.addEventListener, PhotoSplit.buildPhotoCompareSlider,
    PhotoSplit.construct, PhotoSplit.appendChild]
  rw [List.erase_of_not_mem h1, List.erase_of_not_mem h2a,
    List.erase_of_not_mem h3a]
  simp

theorem buildCallback_builds_subtree_witness :
    (NodeId.c1 ∉ wElem.children ∧ NodeId.c2 ∉ wElem.children ∧
      NodeId.slider ∉ wElem.children) ∧
    buildCallback (construct wElem) =
      { element :=
          { wElem with
              styleHeight := some (jsConcatPx (getAttr wElem.attrs "height"))
              styleWidth := some (jsConcatPx (getAttr wElem.attrs "width"))
              children := wElem.children ++ [NodeId.c1, NodeId.c2, NodeId.slider] }
        image1Container_ :=
          { tagName := "div", className := "image1Container",
            styleWidth := some "49%", children := [NodeId.img1] }
        image2Container_ :=
          { tagName := "div", className := "image2Container",
            children := [NodeId.img2] }
        image1_ :=
          { tagName := "img", className := "image1",
            src := getAttr wElem.attrs "image-1-src",
            heightProp := getAttr wElem.attrs "height",
            widthProp := getAttr wElem.attrs "width" }
        image2_ :=
          { tagName := "img", className := "image2",
            src := getAttr wElem.attrs "image-2-src",
            heightProp := getAttr wElem.attrs "height",
            widthProp := getAttr wElem.attrs "width" }
        slider_ := { tagName := "div", className := "slider" }
        myText_ := "AMP Photo-Split-Compare"
        listeners :=
          [(NodeId.slider, "mousedown", Handler.sliderBeginsMoving),
           (NodeId.slider, "touchstart", Handler.sliderBeginsMoving),
           (NodeId.slider, "touchmove", Handler.whileSliderMoving),
           (NodeId.slider, "touchend", Handler.whenSliderStops)] } :=
  ⟨⟨by decide, by decide, by decide⟩,
    buildCallback_builds_subtree wElem (by decide) (by decide) (by decide)⟩

/-- C5: with a missing `height` or `width` attribute,
`buildPhotoCompareSlider` raises no error; the element's style strings are
built by concatenating the `null` attribute value with `px`, yielding the
invalid styling string `nullpx`. -/
theorem buildSlider_missing_attr_styling (element : ElemData) :
    (getAttr element.attrs "height" = none →
      (buildPhotoCompareSlider (construct element)).element.styleHeight =
        some "nullpx") ∧
    (getAttr element.attrs "width" = none →
      (buildPhotoCompareSlider (construct element)).element.styleWidth =
        some "nullpx") := by
  constructor
  · intro h
    show some (jsConcatPx (getAttr element.attrs "height")) = some "nullpx"
    rw [h]
    rfl
  · intro h
    show some (jsConcatPx (getAttr element.attrs "width")) = some "nullpx"
    rw [h]
    rfl

theorem buildSlider_missing_attr_styling_witness :
    getAttr wElemBare.attrs "height" = none ∧
    getAttr wElemBare.attrs "width" = none ∧
    (buildPhotoCompareSlider (construct wElemBare)).element.styleHeight =
      some "nullpx" ∧
    (buildPhotoCompareSlider (construct wElemBare)).element.styleWidth =
      some "nullpx" :=
  ⟨rfl, rfl,
    (buildSlider_missing_attr_styling wElemBare).1 rfl,
    (buildSlider_missing_attr_styling wElemBare).2 rfl⟩

/-- C6: `createListeners` registers exactly four listeners, all on the
slider handle — `mousedown` and `touchstart` to `sliderBeginsMoving`,
`touchmove` to `whileSliderMoving`, `touchend` to `whenSliderStops` — and
changes nothing else about the widget: no listener on any other node and no
other mechanism installed. -/
theorem createListeners_wires_slider_only (s : AmpPhotoSplitCompare) :
    createListeners s =
      { s with listeners := s.listeners ++
          [(NodeId.slider, "mousedown", Handler.sliderBeginsMoving),
           (NodeId.slider, "touchstart", Handler.sliderBeginsMoving),
           (NodeId.slider, "touchmove", Handler.whileSliderMoving),
           (NodeId.slider, "touchend", Handler.whenSliderStops)] } ∧
    ∀ t evt h, (t, evt, h) ∈ (createListeners s).listeners →
      (t, evt, h) ∈ s.listeners ∨ t = NodeId.slider := by
  have hmain : createListeners s =
      { s with listeners := s.listeners ++
          [(NodeId.slider, "mousedown", Handler.sliderBeginsMoving),
           (NodeId.slider, "touchstart", Handler.sliderBeginsMoving),
           (NodeId.slider, "touchmove", Handler.whileSliderMoving),
           (NodeId.slider, "touchend", Handler.whenSliderStops)] } := by
    simp [PhotoSplit.createListeners, PhotoSplit.addEventListener]
  refine ⟨hmain, ?_⟩
  intro t evt h hmem
  rw [hmain] at hmem
  simp only [List.mem_append] at hmem
  rcases hmem with hmem | hmem
  · exact Or.inl hmem
  · right
    simp only [List.mem_cons, List.not_mem_nil, or_false,
      Prod.mk.injEq] at hmem
    rcases hmem with ⟨ht, _⟩ | ⟨ht, _⟩ | ⟨ht, _⟩ | ⟨ht, _⟩ <;> exact ht

/-- C3: a `touchmove` event carrying a touch makes `whileSliderMoving` set
the first image container's width to the pointer X position minus the
container's `offsetLeft`, in pixels, capped at the element's `width`
attribute value, and then set the slider's `left` style to that same width
string. The hypotheses fix the `width` attribute to the decimal string of
the integer `wv`, so the JS numeric coercion of the attribute reads back
`wv`. -/
theorem whileSliderMoving_tracks_pointer (s : AmpPhotoSplitCompare)
    (e : DomEvent) (t : Touch) (rest : List Touch) (wv : Int)
    (ht : e.touches = some (t :: rest))
    (hs : getAttr s.element.attrs "width" = some (toString wv))
    (hn : toNumAttr (getAttr s.element.attrs "width") = some wv) :
    whileSliderMoving s e = some (setContainerWidth s
      (toString (min (t.pageX - s.image1Container_.offsetLeft) wv) ++ "px")) := by
  unfold PhotoSplit.whileSliderMoving PhotoSplit.setContainerWidth
  rw [ht]
  rw [hs] at hn
  simp only [hs, hn]
  by_cases hlt : t.pageX - s.image1Container_.offsetLeft < wv
  · rw [min_eq_left (le_of_lt hlt)]
    simp [hlt, jsConcatPx]
  · rw [min_eq_right (not_lt.mp hlt)]
    simp [hlt, jsConcatPx]

theorem whileSliderMoving_tracks_pointer_witness :
    (DomEvent.mk (some [Touch.mk 50])).touches = some (Touch.mk 50 :: []) ∧
    getAttr wState.element.attrs "width" = some (toString (200 : Int)) ∧
    toNumAttr (getAttr wState.element.attrs "width") = some (200 : Int) ∧
    whileSliderMoving wState (DomEvent.mk (some [Touch.mk 50])) =
      some (setContainerWidth wState
        (toString (min ((Touch.mk 50).pageX -
          wState.image1Container_.offsetLeft) (200 : Int)) ++ "px")) :=
  ⟨rfl, rfl, rfl,
    whileSliderMoving_tracks_pointer wState (DomEvent.mk (some [Touch.mk 50]))
      (Touch.mk 50) [] 200 rfl rfl rfl⟩

/-- C9: the listener wiring routes `mousedown` to `sliderBeginsMoving`, yet
the handler unconditionally reads `e.touches[0].pageX`: it succeeds exactly
on events carrying a non-empty `touches` list, and fails on every event
without one — in particular on the no-`touches` events `mousedown`
delivers. -/
theorem sliderBeginsMoving_requires_touches :
    (∀ s : AmpPhotoSplitCompare,
      (NodeId.slider, "mousedown", Handler.sliderBeginsMoving) ∈
        (createListeners s).listeners) ∧
    (∀ (cw : String) (s : AmpPhotoSplitCompare) (e : DomEvent),
      (sliderBeginsMoving cw s e).isSome = true ↔
        ∃ ts, e.touches = some ts ∧ ts ≠ []) ∧
    (∀ (cw : String) (s : AmpPhotoSplitCompare),
      sliderBeginsMoving cw s (DomEvent.mk none) = none) := by
  refine ⟨?_, ?_, ?_⟩
  · intro s
    simp [PhotoSplit.createListeners, PhotoSplit.addEventListener]
  · intro cw s e
    rcases e with ⟨touches⟩
    rcases touches with _ | ts
    · simp [PhotoSplit.sliderBeginsMoving]
    · rcases ts with _ | ⟨t, rest⟩
      · simp [PhotoSplit.sliderBeginsMoving]
      · simp [PhotoSplit.sliderBeginsMoving]
  · intro cw s
    rfl

theorem orElseO_none {β : Type u} (a : Option β) : orElseO a none = a := by
  cases a <;> rfl

theorem orElseO_assoc {β : Type u} (a b c : Option β) :
    orElseO (orElseO a b) c = orElseO a (orElseO b c) := by
  cases a <;> rfl

theorem lookupA_append {β : Type u} (l1 l2 : List (String × β)) (n : String) :
    lookupA (l1 ++ l2) n = orElseO (lookupA l1 n) (lookupA l2 n) := by
  induction l1 with
  | nil => rfl
  | cons kv rest ih =>
    rcases kv with ⟨k, v⟩
    by_cases hk : k = n
    · simp [lookupA, hk, orElseO]
    · simp [lookupA, hk, ih]

theorem lookupA_addProps {F V : Type} (bl : Option (List String)) :
    ∀ (props : List (String × Descr F V)) (acc : List (String × Binding F V))
      (name : String),
      lookupA (addProps bl acc props) name =
        orElseO (lookupA acc name)
          (if staticSkip bl name then none
           else Option.map bindDescr (lookupA props name)) := by
  intro props
  induction props with
  | nil =>
    intro acc name
    simp [FormProxy.addProps, lookupA, orElseO_none]
  | cons kv rest ih =>
    intro acc name
    rcases kv with ⟨k, d⟩
    by_cases hcond : (staticSkip bl k || (lookupA acc k).isSome) = true
    · have hstep : addProps bl acc ((k, d) :: rest) = addProps bl acc rest := by
        simp only [FormProxy.addProps]
        rw [if_pos hcond]
      rw [hstep, ih]
      by_cases hk : k = name
      · subst hk
        rcases Bool.or_eq_true_iff.mp hcond with hsk | hown
        · rw [hsk]
          simp
        · cases ha : lookupA acc k with
          | none => rw [ha] at hown; simp at hown
          | some w => simp [orElseO]
      · have : lookupA ((k, d) :: rest) name = lookupA rest name := by
          simp [lookupA, hk]
        rw [this]
    · have hstep : addProps bl acc ((k, d) :: rest) =
          addProps bl (acc ++ [(k, bindDescr d)]) rest := by
        simp only [FormProxy.addProps]
        rw [if_neg hcond]
      rw [hstep, ih, lookupA_append]
      have hsk : staticSkip bl k = false := by
        rcases Bool.or_eq_false_iff.mp (Bool.not_eq_true _ ▸ hcond) with ⟨h1, _⟩
        exact h1
      have hown : lookupA acc k = none := by
        rcases Bool.or_eq_false_iff.mp (Bool.not_eq_true _ ▸ hcond) with ⟨_, h2⟩
        exact Option.not_isSome_iff_eq_none.mp (by simp [h2])
      by_cases hk : k = name
      · subst hk
        rw [hown, hsk]
        simp [lookupA, orElseO]
      · have h1 : lookupA [(k, bindDescr d)] name = none := by
          simp [lookupA, hk]
        have h2 : lookupA ((k, d) :: rest) name = lookupA rest name := by
          simp [lookupA, hk]
        rw [h1, h2, orElseO_none]

theorem lookupA_buildProtoAux {F V : Type} (bl : Option (List String)) :
    ∀ (chain : List (Option (List (String × Descr F V))))
      (acc : List (String × Binding F V)) (name : String),
      lookupA (buildProtoAux bl chain acc) name =
        orElseO (lookupA acc name)
          (if staticSkip bl name then none
           else Option.map bindDescr (chainFind chain name)) := by
  intro chain
  induction chain with
  | nil =>
    intro acc name
    simp [FormProxy.buildProtoAux, FormProxy.chainFind, orElseO_none]
  | cons kl rest ih =>
    intro acc name
    cases kl with
    | none =>
      simp only [FormProxy.buildProtoAux, FormProxy.chainFind]
      exact ih acc name
    | some props =>
      simp only [FormProxy.buildProtoAux, FormProxy.chainFind]
      rw [ih, lookupA_addProps, orElseO_assoc]
      congr 1
      cases hsk : staticSkip bl name
      · cases hp : lookupA props name <;> simp [orElseO]
      · simp [orElseO]

theorem lookupA_buildProto {F V : Type} (bl : Option (List String))
    (chain : List (Option (List (String × Descr F V)))) (name : String) :
    lookupA (buildProto bl chain) name =
      Option.map bindDescr (resolveDescr bl chain name) := by
  unfold FormProxy.buildProto FormProxy.resolveDescr
  rw [lookupA_buildProtoAux]
  cases hsk : staticSkip bl name <;> simp [lookupA, orElseO]

/-- C2: for every property the prototype-chain walk binds onto the proxy
prototype — i.e. whose descriptor the walk resolves — a function-valued
descriptor makes `proxy[name](args)` return the original prototype method
applied to the underlying form with those arguments, and an
accessor descriptor makes reading `proxy[name]` return the original getter
applied to the form and writing `proxy[name]` invoke the original setter on
the form: the proxy exposes the element's native properties, not its own
state. -/
theorem proxy_walk_forwards {F V : Type} (bl : Option (List String))
    (chain : List (Option (List (String × Descr F V)))) (name : String)
    (form : F) (args : List V) (v : V) :
    (∀ m, resolveDescr bl chain name = some (Descr.methodVal m) →
      proxyCall (buildProto bl chain) form name args = some (m form args)) ∧
    (∀ g st, resolveDescr bl chain name = some (Descr.accessor g st) →
      proxyGet (buildProto bl chain) form name =
        Option.map (fun gf => gf form) g ∧
      proxySet (buildProto bl chain) form name v =
        Option.map (fun sf => sf form v) st) := by
  constructor
  · intro m hres
    unfold FormProxy.proxyCall
    rw [lookupA_buildProto, hres]
    rfl
  · intro g st hres
    constructor
    · unfold FormProxy.proxyGet
      rw [lookupA_buildProto, hres]
      cases g <;> rfl
    · unfold FormProxy.proxySet
      rw [lookupA_buildProto, hres]
      cases st <;> rfl

theorem proxy_walk_forwards_witness :
    resolveDescr none wChain "getSelf" = some (Descr.methodVal wMethod) ∧
    resolveDescr none wChain "id" =
      some (Descr.accessor (some wGetter) (some wSetter)) ∧
    proxyCall (buildProto none wChain) 7 "getSelf" [1, 2] =
      some (wMethod 7 [1, 2]) ∧
    proxyGet (buildProto none wChain) 7 "id" = some (wGetter 7) ∧
    proxySet (buildProto none wChain) 7 "id" 5 = some (wSetter 7 5) :=
  ⟨rfl, rfl,
    (proxy_walk_forwards none wChain "getSelf" 7 [1, 2] 5).1 wMethod rfl,
    ((proxy_walk_forwards none wChain "id" 7 [1, 2] 5).2
      (some wGetter) (some wSetter) rfl).1,
    ((proxy_walk_forwards none wChain "id" 7 [1, 2] 5).2
      (some wGetter) (some wSetter) rfl).2⟩

/-- C1: `installFormProxy` constructs the proxy, assigns it to the form's
`$p` property and returns that same object, and `setupLegacyProxy` is
invoked exactly when the freshly constructed proxy does not expose an
`action` property (i.e. when no prototype of the chain supplied an `action`
descriptor to the walk). -/
theorem installFormProxy_action_gate {F V : Type} (bl : Option (List String))
    (setupLegacy : ProxyObj F V → ProxyObj F V) (w : Win F V) :
    (installFormProxy bl setupLegacy w).pProp =
      some (installFormProxy bl setupLegacy w).proxy ∧
    ((installFormProxy bl setupLegacy w).legacyInvoked = true ↔
      proxyHasName (ProxyObj.mk (getFormProxyConstr bl w).1 []) "action" =
        false) := by
  simp only [FormProxy.installFormProxy]
  cases h : proxyHasName (ProxyObj.mk (getFormProxyConstr bl w).1 []) "action" <;>
    simp [h]

/-- C7 counterexample: `installFormProxy` does leave observable residue on
the window beyond the returned proxy — on a window whose `FormProxy` cache
slot is empty, the window after the call differs from the window before
(the constructor has been cached on it). -/
theorem install_residue_counterexample :
    ¬ (installFormProxy none id cWin).win = cWin := by
  intro h
  have h2 := congrArg (fun w : Win Nat Nat => w.FormProxy.isSome) h
  simp only [] at h2
  exact Bool.noConfusion (show (true : Bool) = false from h2)

/-- C7 amended: `installFormProxy` caches the proxy constructor on the
window (`win.FormProxy`); that cache is its only residue on the window, it
holds exactly the constructor a fresh identically-configured window would
build, and a second call on the now-cached window produces the same proxy
and takes the same legacy branch as the first call did. -/
theorem install_caches_constructor {F V : Type} (bl : Option (List String))
    (setupLegacy : ProxyObj F V → ProxyObj F V) (w : Win F V)
    (hw : w.FormProxy = none) :
    (installFormProxy bl setupLegacy w).win =
      { w with FormProxy := some (buildProto bl w.chain) } ∧
    (installFormProxy bl setupLegacy
        (installFormProxy bl setupLegacy w).win).proxy =
      (installFormProxy bl setupLegacy w).proxy ∧
    (installFormProxy bl setupLegacy
        (installFormProxy bl setupLegacy w).win).legacyInvoked =
      (installFormProxy bl setupLegacy w).legacyInvoked := by
  have hg : getFormProxyConstr bl w =
      (buildProto bl w.chain,
        { w with FormProxy := some (buildProto bl w.chain) }) := by
    unfold FormProxy.getFormProxyConstr
    rw [hw]
  have hg2 : getFormProxyConstr bl
      { w with FormProxy := some (buildProto bl w.chain) } =
      (buildProto bl w.chain,
        { w with FormProxy := some (buildProto bl w.chain) }) := rfl
  have hwin : (installFormProxy bl setupLegacy w).win =
      { w with FormProxy := some (buildProto bl w.chain) } := by
    simp only [FormProxy.installFormProxy, hg]
    cases h : proxyHasName
        (ProxyObj.mk (buildProto bl w.chain) []) "action" <;> simp [h]
  refine ⟨hwin, ?_, ?_⟩
  · rw [hwin]
    simp only [FormProxy.installFormProxy, hg, hg2]
  · rw [hwin]
    simp only [FormProxy.installFormProxy, hg, hg2]

theorem install_caches_constructor_witness :
    cWinBare.FormProxy = none ∧
    ((installFormProxy none id cWinBare).win =
      { cWinBare with FormProxy := some (buildProto none cWinBare.chain) } ∧
     (installFormProxy none id
        (installFormProxy none id cWinBare).win).proxy =
      (installFormProxy none id cWinBare).proxy ∧
     (installFormProxy none id
        (installFormProxy none id cWinBare).win).legacyInvoked =
      (installFormProxy none id cWinBare).legacyInvoked) :=
  ⟨rfl, install_caches_constructor none id cWinBare rfl⟩

theorem nextSiblingL_mem : ∀ (l : List Nat) (x r : Nat),
    nextSiblingL l x = some r → r ∈ l := by
  intro l
  induction l with
  | nil => intro x r h; cases h
  | cons a rest ih =>
    intro x r h
    unfold FormProxy.nextSiblingL at h
    by_cases hax : a = x
    · rw [if_pos hax] at h
      cases rest with
      | nil => cases h
      | cons b t =>
        have hrb : r = b := by simpa using h.symm
        subst hrb
        exact List.mem_cons_of_mem a (List.mem_cons_self r t)
    · rw [if_neg hax] at h
      exact List.mem_cons_of_mem a (ih x r h)

theorem insertBeforeL_removeChild (x : Nat) :
    ∀ l : List Nat, x ∈ l → l.Nodup →
      insertBeforeL (removeChildL l x) x (nextSiblingL l x) = l := by
  intro l
  induction l with
  | nil => intro hx _; cases hx
  | cons a rest ih =>
    intro hx hnd
    have hnd2 := List.nodup_cons.mp hnd
    by_cases hax : a = x
    · subst hax
      have hrm : removeChildL (a :: rest) a = rest := by
        simp [FormProxy.removeChildL]
      have hns : nextSiblingL (a :: rest) a = rest.head? := by
        simp [FormProxy.nextSiblingL]
      rw [hrm, hns]
      cases rest with
      | nil => rfl
      | cons b t =>
        show insertBeforeL (b :: t) a (some b) = a :: b :: t
        simp [FormProxy.insertBeforeL, FormProxy.insertBeforeRef]
    · have hxr : x ∈ rest := by
        rcases List.mem_cons.mp hx with h | h
        · exact absurd h.symm hax
        · exact h
      have hrm : removeChildL (a :: rest) x = a :: removeChildL rest x := by
        simp [FormProxy.removeChildL, hax]
      have hns : nextSiblingL (a :: rest) x = nextSiblingL rest x := by
        simp [FormProxy.nextSiblingL, hax]
      rw [hrm, hns]
      have hih := ih hxr hnd2.2
      cases hcase : nextSiblingL rest x with
      | none =>
        rw [hcase] at hih
        show (a :: removeChildL rest x) ++ [x] = a :: rest
        have : removeChildL rest x ++ [x] = rest := hih
        rw [List.cons_append, this]
      | some r =>
        have hr : r ∈ rest := nextSiblingL_mem rest x r hcase
        have hra : ¬ a = r := fun h => hnd2.1 (h ▸ hr)
        rw [hcase] at hih
        show insertBeforeRef (a :: removeChildL rest x) x r = a :: rest
        unfold FormProxy.insertBeforeRef
        rw [if_neg hra]
        have : insertBeforeRef (removeChildL rest x) x r = rest := hih
        rw [this]

/-- C8: in the legacy READ_ONCE path, reading a property shadowed by a form
field leaves the child list unchanged: the shadowing input is removed, the
true value is read, and the input is re-inserted before its recorded next
sibling in the `finally` block — for every read outcome, including a thrown
error, the final children equal the original children, and the read outcome
is passed through untouched. -/
theorem readOnceAcquire_frame {V : Type} (children : List Nat) (field : Nat)
    (read : Except Unit V) (hmem : field ∈ children)
    (hnd : children.Nodup) :
    (readOnceAcquire children field read).2 = children ∧
    (readOnceAcquire children field read).1 = read := by
  refine ⟨?_, rfl⟩
  unfold FormProxy.readOnceAcquire
  exact insertBeforeL_removeChild field children hmem hnd

theorem readOnceAcquire_frame_witness :
    ((2 : Nat) ∈ [1, 2, 3] ∧ ([1, 2, 3] : List Nat).Nodup) ∧
    (readOnceAcquire [1, 2, 3] 2 (Except.error () : Except Unit Nat)).2 =
      [1, 2, 3] ∧
    (readOnceAcquire [1, 2, 3] 2 (Except.error () : Except Unit Nat)).1 =
      Except.error () :=
  ⟨⟨by decide, by decide⟩,
    readOnceAcquire_frame [1, 2, 3] 2 (Except.error ()) (by decide) (by decide)⟩

theorem getAttr_setAttr : ∀ (attrs : List (String × String)) (n v : String),
    getAttr (setAttr attrs n v) n = some v := by
  intro attrs
  induction attrs with
  | nil => intro n v; simp [setAttr, getAttr, lookupA]
  | cons kv rest ih =>
    intro n v
    rcases kv with ⟨k, w⟩
    by_cases hk : k = n
    · simp [setAttr, hk, getAttr, lookupA]
    · have hrec := ih n v
      unfold getAttr at hrec
      simp [setAttr, hk, getAttr, lookupA, hrec]

theorem getAttr_removeAttr : ∀ (attrs : List (String × String)) (n : String),
    getAttr (removeAttr attrs n) n = none := by
  intro attrs
  induction attrs with
  | nil => intro n; rfl
  | cons kv rest ih =>
    intro n
    rcases kv with ⟨k, w⟩
    by_cases hk : k = n
    · simp [removeAttr, getAttr, lookupA, hk, List.filter] at ih ⊢
      exact ih n
    · simp [removeAttr, getAttr, lookupA, hk, List.filter] at ih ⊢
      exact ih n

/-- C10: for the TOGGLE-typed legacy properties `hidden` and `noValidate`,
setting the proxy property to any value `v` and reading it back returns the
boolean coercion of `v`: a truthy write stores an empty attribute and reads
back `true`; a falsy write removes the attribute and reads back the declared
default `false`. -/
theorem legacy_toggle_roundtrip (resolveUrl : String → String)
    (attrs : List (String × String)) (v : JSVal) (name : String)
    (d : LegacyPropDef)
    (hname : name = "hidden" ∨ name = "noValidate")
    (hd : lookupA LEGACY_PROPS name = some d) :
    legacyAttrGet resolveUrl d name (legacyAttrSet d name attrs v) =
      JSVal.bool (truthy v) := by
  rcases hname with h | h
  · subst h
    have h0 : lookupA LEGACY_PROPS "hidden" = some wHiddenDef := rfl
    rw [h0] at hd
    injection hd with hd
    subst hd
    cases htr : truthy v
    · unfold FormProxy.legacyAttrSet FormProxy.legacyAttrGet
      simp [wHiddenDef, htr, getAttr_removeAttr]
    · unfold FormProxy.legacyAttrSet FormProxy.legacyAttrGet
      simp [wHiddenDef, htr, getAttr_setAttr]
  · subst h
    have h0 : lookupA LEGACY_PROPS "noValidate" = some wNoValidateDef := rfl
    rw [h0] at hd
    injection hd with hd
    subst hd
    cases htr : truthy v
    · unfold FormProxy.legacyAttrSet FormProxy.legacyAttrGet
      simp [wNoValidateDef, htr, getAttr_removeAttr]
    · unfold FormProxy.legacyAttrSet FormProxy.legacyAttrGet
      simp [wNoValidateDef, htr, getAttr_setAttr]

theorem legacy_toggle_roundtrip_witness :
    ("hidden" = "hidden" ∨ "hidden" = "noValidate") ∧
    lookupA LEGACY_PROPS "hidden" = some wHiddenDef ∧
    legacyAttrGet idResolve wHiddenDef "hidden"
      (legacyAttrSet wHiddenDef "hidden" [] (JSVal.num 3)) =
      JSVal.bool (truthy (JSVal.num 3)) :=
  ⟨Or.inl rfl, rfl,
    legacy_toggle_roundtrip idResolve [] (JSVal.num 3) "hidden" wHiddenDef
      (Or.inl rfl) rfl⟩

theorem createListeners_wires_slider_only_witness :
    (NodeId.slider, "mousedown", Handler.sliderBeginsMoving) ∈
      (createListeners wState).listeners ∧
    ((NodeId.slider, "mousedown", Handler.sliderBeginsMoving) ∈
        wState.listeners ∨
      NodeId.slider = NodeId.slider) :=
  ⟨by decide,
    (createListeners_wires_slider_only wState).2 NodeId.slider "mousedown"
      Handler.sliderBeginsMoving (by decide)⟩
